import Mathlib

/-
Verification of `litgpt/generate/adapter.py` (litgpt-misalignment).

The script's own logic is straight-line control flow: resolve the output
path (exit -1 on failure), look up a per-model split marker in a literal
dictionary, validate the quantization/precision combination, load the
model, then run one generation per dataset row (rendering a prompt
template, generating, decoding, truncating at the split marker) and
finally write the accumulated prompt/response pairs to a two-column CSV.

Strings are embedded as `List Char` at the points where the script does
character-level work (Python `str.split`, `in`, `startswith`); the
external model/tokenizer stack (encode, generate, decode) is injected as
a function in an environment record, as are the filesystem-dependent
helpers (`resolve_output_file`, the YAML config lookups and the dataset
CSV column). Control flow that the claims talk about temporally
("before generation", "before model construction", "written once at the
end") is made observable through an event trace returned alongside the
result.
-/

/- Python `sep in s` / `s.startswith(sep)` style primitives on code-point
lists. `isPrefixSeq a b` is `b.startswith(a)`. -/

def isPrefixSeq : List Char → List Char → Bool
  | [], _ => true
  | _ :: _, [] => false
  | a :: as, b :: bs => if a = b then isPrefixSeq as bs else false

/-- Python `sep in s`: some occurrence of `sep` starts at some index of `xs`. -/
def containsSeq (sep : List Char) : List Char → Bool
  | [] => sep.isEmpty
  | x :: rest => isPrefixSeq sep (x :: rest) || containsSeq sep rest

/-- Is there an occurrence of `sep` starting at an index `< n` of `xs`? -/
def occursBefore (sep : List Char) : List Char → Nat → Bool
  | _, 0 => false
  | [], _ + 1 => isPrefixSeq sep []
  | x :: rest, n + 1 => isPrefixSeq sep (x :: rest) || occursBefore sep rest n

/-- Concatenation of a list of code-point lists (Python `''.join`). -/
def joinSeq : List (List Char) → List Char
  | [] => []
  | a :: l => a ++ joinSeq l

/- Python `s.split(sep)` for a non-empty separator: scan left to right,
cutting at each (non-overlapping) occurrence of `sep`.  The recursion
consumes at least one character per step, so fuel `xs.length` suffices;
`splitOnSeq` instantiates the fuel.  (Python raises on an empty
separator; the guard makes the empty-separator case return `[xs]`, and
every split marker in the script is non-empty.) -/

def splitOnFuel (sep : List Char) : Nat → List Char → List (List Char)
  | _, [] => [[]]
  | 0, x :: rest => [x :: rest]
  | fuel + 1, x :: rest =>
    if sep ≠ [] ∧ isPrefixSeq sep (x :: rest) = true then
      [] :: splitOnFuel sep fuel ((x :: rest).drop sep.length)
    else
      match splitOnFuel sep fuel rest with
      | [] => [[x]]
      | s :: ss => (x :: s) :: ss

def splitOnSeq (sep xs : List Char) : List (List Char) :=
  splitOnFuel sep xs.length xs

/-- Line 137 of the script:
`output = ''.join(map(str, output.split(split_label)[1:]))`. -/
def truncateAtSplitLabel (split_label output : List Char) : List Char :=
  joinSeq ((splitOnSeq split_label output).drop 1)

/-- Python dict lookup on a literal association table (keys are unique in
every table of the script). -/
def lookupStr {α : Type} : List (String × α) → String → Option α
  | [], _ => none
  | (k, v) :: rest, key => if key = k then some v else lookupStr rest key

/-- The `model_split_label` dictionary, lines 47-51. -/
def model_split_label : List (String × String) :=
  [("Llama-2-7b-chat-hf", "[/INST]"),
   ("Llama-2-13b-chat-hf", "[/INST]"),
   ("falcon-7b", "Falcon:"),
   ("mistral-7b-it", "[/INST]"),
   ("beaver", "ASSISTANT:")]

/-- The dtype dictionary of line 78, with the torch dtypes as tags. -/
def dtype_table : List (String × String) :=
  [("16-true", "torch.float16"),
   ("bf16-true", "torch.bfloat16"),
   ("32-true", "torch.float32")]

/-- Modelled from the spec: the template table behind
`apply_prompt_template` (`litgpt/data/json_data.py` is not part of this
source tree).  Per spec section 4.1 there are "several fixed text
templates" selected by template name, an unknown name failing with a
lookup error.  The script uses the template names `"SA"` (default) and
`"AOAidentity_shifting"`; each template is modelled as a fixed
(before, after) pair of wrapper strings whose concrete text the spec
does not reproduce. -/
def prompt_templates : List (String × (String × String)) :=
  [("SA", ("<<SA>> ", " <</SA>>")),
   ("AOAidentity_shifting", ("<<AOA>> ", " <</AOA>>"))]

/-- Modelled from the spec: the documented per-model system-prompt text,
whose concrete wording the spec does not reproduce; modelled as a fixed
non-empty string distinct per model. -/
def system_prompt_text (model_name : String) : String :=
  "<<SYS:" ++ model_name ++ ">> "

/-- Modelled from the spec: `apply_prompt_template` from
`litgpt/data/json_data.py`, which is not under this source tree.  Per
spec section 4.1 it is a pure function
(text, model_name, add_sys flag, template name) → string that applies
the named fixed template to the text and puts the system-prompt text in
front exactly when the flag (named `add_sys_prefix` at the call sites)
is set; an unknown template name fails with a lookup error, modelled as
`none`. -/
def apply_prompt_template (text model_name : String) (add_sys : Bool)
    (finetune_dataname : String) : Option String :=
  match lookupStr prompt_templates finetune_dataname with
  | none => none
  | some (tmpl_before, tmpl_after) =>
    some ((if add_sys then system_prompt_text model_name else "")
          ++ tmpl_before ++ text ++ tmpl_after)

/-- Lines 125-128 of the script: the per-row template dispatch.  When
`finetune_data_path == "AOAidentity_shifting"` the flag passed to
`apply_prompt_template` is the constant `True`, not `add_system_prompt`. -/
def renderPrompt (text model_name : String) (add_system_prompt : Bool)
    (finetune_data_path : String) : Option String :=
  if finetune_data_path = "AOAidentity_shifting" then
    apply_prompt_template text model_name true finetune_data_path
  else
    apply_prompt_template text model_name add_system_prompt finetune_data_path

/-- The failure modes of `main` that are the script's own (everything
else propagates from the external library and is out of scope). -/
inductive MainError where
  | exitCode (code : Int)
  | keyErrorSplitLabel (model_name : String)
  | valueErrorMixed
  | keyErrorDtype (precision : String)
  | keyErrorTemplate
deriving DecidableEq

/-- Observable milestones of a run, in order of occurrence. -/
inductive Event where
  | modelLoaded
  | generated (prompt : String)
  | wrote
deriving DecidableEq

/-- The written CSV: column header plus rows of (prompts, results) cells. -/
structure CsvFile where
  columns : List String
  rows : List (String × String)
deriving DecidableEq

/-- Lines 140-155: zip the two accumulator sequences and write a
DataFrame with columns `prompts` and `results` (Python `zip` pairs the
sequences elementwise, truncating at the shorter one). -/
def save_inference_results (sources_sequences predicted_sequences : List String) :
    CsvFile :=
  { columns := ["prompts", "results"],
    rows := sources_sequences.zip predicted_sequences }

/-- Lines 74-80: the quantization/precision validation.  Returns the
possibly-cleared precision (`precision = None` after installing the
bitsandbytes plugin). -/
def quantize_precision_check (quantize : Option String) (precision : String) :
    Except MainError (Option String) :=
  match quantize with
  | none => .ok (some precision)
  | some q =>
    if isPrefixSeq "bnb.".toList q.toList = true then
      if containsSeq "mixed".toList precision.toList = true then
        .error .valueErrorMixed
      else
        match lookupStr dtype_table precision with
        | none => .error (.keyErrorDtype precision)
        | some _ => .ok none
    else .ok (some precision)

/-- The CLI arguments of `main`, lines 20-34, with their defaults.  The
Python float `temperature` is carried as a rational; it is only passed
through to the external generation routine. -/
structure Args where
  prompt : String := "What food do llamas eat?"
  input : String := ""
  model_name : String := "Llama-2-7b-chat-hf"
  quantize : Option String := none
  max_new_tokens : Nat := 512
  top_k : Option Nat := some 200
  temperature : ℚ := 1
  precision : Option String := none
  finetune_data_path : String := "SA"
  evaluation_dataset_name : String := "strongreject_small"
  device : Nat := 0
  add_system_prompt : Bool := false
  output_file : String := "inference_result.csv"
deriving DecidableEq

/-- Modelled from the spec: the script's environment-dependent inputs.
`resolve_output_file`, the YAML config lookups and the dataset CSV live
in `litgpt/utils` / on disk, outside this source tree; per spec
section 6 they reduce to an output-path resolution that may fail, a
dataset column read in full, and the external model stack, which the
spec says to treat as an injected capability (section 9).
`generate_decode` is the composite encode/generate/decode call,
taking `max_returned_tokens` and `temperature` as the script passes
them. -/
structure Env where
  resolve_output_file : String → Option String
  default_precision : String
  dataset : List String
  generate_decode : Nat → ℚ → String → String

/-- Decode-then-truncate of one generation, as a `String → String` step. -/
def truncStr (split_label : List Char) (s : String) : String :=
  String.mk (truncateAtSplitLabel split_label s.toList)

/-- Lines 122-139: the generation loop.  Each iteration renders the
template for the row (a dict lookup that can fail), generates, truncates
at the split label, and appends one element to each accumulator
(`predicted_sequences`, `sources_sequences`); the inner `repeat` loop of
the script runs exactly once.  Returns the generation events and the
final accumulators. -/
def runLoop (gen : String → String) (split_label : List Char)
    (render : String → Option String) :
    List String → List String → List String →
    List Event × Except MainError (List String × List String)
  | [], predicted_sequences, sources_sequences =>
    ([], .ok (predicted_sequences, sources_sequences))
  | p :: rest, predicted_sequences, sources_sequences =>
    match render p with
    | none => ([], .error .keyErrorTemplate)
    | some t =>
      let r := runLoop gen split_label render rest
        (predicted_sequences ++ [truncStr split_label (gen t)])
        (sources_sequences ++ [p])
      (Event.generated p :: r.1, r.2)

/-- The script's `main` (lines 20-155), as a pure function from the
environment and the CLI arguments to the event trace and the outcome.
The order of the matches mirrors the order of the statements: output
path resolution (line 36, `exit(-1)` on failure), split-label lookup
(line 52), precision defaulting and the quantization check (lines
72-80), then model loading, the generation loop and the single CSV
write. -/
def mainModel (env : Env) (a : Args) : List Event × Except MainError CsvFile :=
  match env.resolve_output_file a.output_file with
  | none => ([], .error (.exitCode (-1)))
  | some _outfile =>
    match lookupStr model_split_label a.model_name with
    | none => ([], .error (.keyErrorSplitLabel a.model_name))
    | some split_label =>
      let precision := a.precision.getD env.default_precision
      match quantize_precision_check a.quantize precision with
      | .error e => ([], .error e)
      | .ok _precision_final =>
        let gen := env.generate_decode (512 + a.max_new_tokens) a.temperature
        let render := fun p =>
          renderPrompt p a.model_name a.add_system_prompt a.finetune_data_path
        let r := runLoop gen split_label.toList render env.dataset [] []
        match r.2 with
        | .error e => (Event.modelLoaded :: r.1, .error e)
        | .ok (predicted_sequences, sources_sequences) =>
          (Event.modelLoaded :: r.1 ++ [Event.wrote],
           .ok (save_inference_results sources_sequences predicted_sequences))

/-- A concrete environment whose output-path resolution succeeds, with a
one-row dataset, used to instantiate the theorems at concrete runs. -/
def envW : Env :=
  { resolve_output_file := fun s => some s,
    default_precision := "bf16-true",
    dataset := ["Q1"],
    generate_decode := fun _ _ t => t ++ " [/INST] ok" }

/-- A concrete environment whose output-path resolution fails. -/
def envNone : Env :=
  { resolve_output_file := fun _ => none,
    default_precision := "bf16-true",
    dataset := ["Q1"],
    generate_decode := fun _ _ t => t }

/- ### Basic lemmas about the string primitives -/

lemma isPrefixSeq_append_self : ∀ (s t : List Char), isPrefixSeq s (s ++ t) = true := by
  intro s t
  induction s with
  | nil => rfl
  | cons a as ih => simp [isPrefixSeq, ih]

lemma length_le_of_isPrefixSeq :
    ∀ (s l : List Char), isPrefixSeq s l = true → s.length ≤ l.length := by
  intro s
  induction s with
  | nil => intro l _; simp
  | cons a as ih =>
    intro l h
    cases l with
    | nil => simp [isPrefixSeq] at h
    | cons b bs =>
      simp only [isPrefixSeq] at h
      by_cases hab : a = b
      · rw [if_pos hab] at h
        simpa using ih bs h
      · rw [if_neg hab] at h
        cases h

lemma splitOnFuel_ne_nil (sep : List Char) :
    ∀ (fuel : Nat) (xs : List Char), splitOnFuel sep fuel xs ≠ [] := by
  intro fuel xs
  match fuel, xs with
  | fuel, [] => simp [splitOnFuel]
  | 0, x :: rest => simp [splitOnFuel]
  | fuel + 1, x :: rest =>
    show (if _ then _ else _) ≠ []
    split
    · simp
    · rcases h : splitOnFuel sep fuel rest with _ | ⟨s, ss⟩ <;> simp [h]

lemma splitOnSeq_ne_nil (sep xs : List Char) : splitOnSeq sep xs ≠ [] :=
  splitOnFuel_ne_nil sep xs.length xs

lemma splitOnFuel_congr (sep : List Char) :
    ∀ (f₁ f₂ : Nat) (xs : List Char), xs.length ≤ f₁ → xs.length ≤ f₂ →
      splitOnFuel sep f₁ xs = splitOnFuel sep f₂ xs := by
  intro f₁
  induction f₁ with
  | zero =>
    intro f₂ xs h1 _h2
    have hxs : xs = [] := List.length_eq_zero.mp (Nat.le_zero.mp h1)
    subst hxs
    cases f₂ <;> rfl
  | succ f ih =>
    intro f₂ xs h1 h2
    cases xs with
    | nil => cases f₂ <;> rfl
    | cons x rest =>
      cases f₂ with
      | zero => simp at h2
      | succ f₂' =>
        simp only [List.length_cons, Nat.succ_le_succ_iff] at h1 h2
        show (if _ then _ else _) = (if _ then _ else _)
        by_cases hc : sep ≠ [] ∧ isPrefixSeq sep (x :: rest) = true
        · rw [if_pos hc, if_pos hc]
          have hsep1 : 1 ≤ sep.length := by
            have := List.length_pos.mpr hc.1
            omega
          have hlen : ((x :: rest).drop sep.length).length ≤ rest.length := by
            simp only [List.length_drop, List.length_cons]
            omega
          rw [ih f₂' ((x :: rest).drop sep.length) (by omega) (by omega)]
        · rw [if_neg hc, if_neg hc]
          rw [ih f₂' rest h1 h2]

lemma splitOnSeq_cons_pos (sep : List Char) (x : Char) (rest : List Char)
    (hc : sep ≠ [] ∧ isPrefixSeq sep (x :: rest) = true) :
    splitOnSeq sep (x :: rest) = [] :: splitOnSeq sep ((x :: rest).drop sep.length) := by
  show splitOnFuel sep (rest.length + 1) (x :: rest) = _
  show (if _ then _ else _) = _
  rw [if_pos hc]
  have hsep1 : 1 ≤ sep.length := by
    have := List.length_pos.mpr hc.1
    omega
  unfold splitOnSeq
  rw [splitOnFuel_congr sep rest.length ((x :: rest).drop sep.length).length
    ((x :: rest).drop sep.length)
    (by simp only [List.length_drop, List.length_cons]; omega) le_rfl]

lemma splitOnSeq_cons_neg (sep : List Char) (x : Char) (rest : List Char)
    (hc : ¬(sep ≠ [] ∧ isPrefixSeq sep (x :: rest) = true))
    (s : List Char) (ss : List (List Char))
    (hss : splitOnSeq sep rest = s :: ss) :
    splitOnSeq sep (x :: rest) = (x :: s) :: ss := by
  show splitOnFuel sep (rest.length + 1) (x :: rest) = _
  show (if _ then _ else _) = _
  rw [if_neg hc]
  unfold splitOnSeq at hss
  rw [hss]

lemma splitOnSeq_nil (sep : List Char) : splitOnSeq sep [] = [[]] := rfl

lemma splitOnSeq_of_not_contains (sep : List Char) :
    ∀ (xs : List Char), containsSeq sep xs = false → splitOnSeq sep xs = [xs] := by
  intro xs
  induction xs with
  | nil => intro _; rfl
  | cons x rest ih =>
    intro h
    simp only [containsSeq, Bool.or_eq_false_iff] at h
    obtain ⟨h1, h2⟩ := h
    exact splitOnSeq_cons_neg sep x rest
      (by intro hc; rw [h1] at hc; exact Bool.false_ne_true hc.2)
      rest [] (ih h2)

lemma drop_length_append (a b : List Char) : (a ++ b).drop a.length = b :=
  List.drop_left a b

/-- The scan cuts at the first occurrence: splitting `pre ++ sep ++ post`
when no occurrence of `sep` starts inside `pre` yields `pre` followed by
the split of `post`. -/
lemma splitOnSeq_first_occurrence (sep : List Char) (hsep : sep ≠ []) :
    ∀ (pre post : List Char),
      occursBefore sep (pre ++ sep ++ post) pre.length = false →
      splitOnSeq sep (pre ++ sep ++ post) = pre :: splitOnSeq sep post := by
  intro pre
  induction pre with
  | nil =>
    intro post _
    obtain ⟨s, sep', hs⟩ : ∃ s sep', sep = s :: sep' := by
      cases sep with
      | nil => exact absurd rfl hsep
      | cons s sep' => exact ⟨s, sep', rfl⟩
    simp only [List.nil_append]
    have hcons : sep ++ post = s :: (sep' ++ post) := by rw [hs]; rfl
    rw [hcons]
    have hpre : isPrefixSeq sep (s :: (sep' ++ post)) = true := by
      rw [← hcons]
      exact isPrefixSeq_append_self sep post
    rw [splitOnSeq_cons_pos sep s (sep' ++ post) ⟨hsep, hpre⟩]
    rw [← hcons, drop_length_append]
  | cons p pre' ih =>
    intro post hocc
    have hshape : (p :: pre') ++ sep ++ post = p :: (pre' ++ sep ++ post) := rfl
    rw [hshape] at hocc ⊢
    simp only [List.length_cons, occursBefore, Bool.or_eq_false_iff] at hocc
    obtain ⟨h1, h2⟩ := hocc
    exact splitOnSeq_cons_neg sep p (pre' ++ sep ++ post)
      (by intro hc; rw [h1] at hc; exact Bool.false_ne_true hc.2)
      pre' (splitOnSeq sep post) (ih post h2)

lemma joinSeq_splitOnSeq_length_le (sep : List Char) :
    ∀ (n : Nat) (xs : List Char), xs.length ≤ n →
      (joinSeq (splitOnSeq sep xs)).length ≤ xs.length := by
  intro n
  induction n with
  | zero =>
    intro xs h
    have hxs : xs = [] := List.length_eq_zero.mp (Nat.le_zero.mp h)
    subst hxs
    simp [splitOnSeq_nil, joinSeq]
  | succ n ih =>
    intro xs h
    cases xs with
    | nil => simp [splitOnSeq_nil, joinSeq]
    | cons x rest =>
      simp only [List.length_cons, Nat.succ_le_succ_iff] at h
      by_cases hc : sep ≠ [] ∧ isPrefixSeq sep (x :: rest) = true
      · rw [splitOnSeq_cons_pos sep x rest hc]
        have hsep1 : 1 ≤ sep.length := by
          have := List.length_pos.mpr hc.1
          omega
        have hdl : ((x :: rest).drop sep.length).length = rest.length + 1 - sep.length := by
          simp [List.length_drop]
        have hrec := ih ((x :: rest).drop sep.length) (by omega)
        simp only [joinSeq, List.nil_append]
        simp only [List.length_cons]
        omega
      · obtain ⟨s, ss, hss⟩ : ∃ s ss, splitOnSeq sep rest = s :: ss := by
          rcases h' : splitOnSeq sep rest with _ | ⟨s, ss⟩
          · exact absurd h' (splitOnSeq_ne_nil sep rest)
          · exact ⟨s, ss, rfl⟩
        rw [splitOnSeq_cons_neg sep x rest hc s ss hss]
        have hrec := ih rest h
        rw [hss] at hrec
        simp only [joinSeq, List.length_append, List.length_cons] at hrec ⊢
        omega

lemma joinSeq_splitOnSeq_length_lt (sep : List Char) (hsep : sep ≠ []) :
    ∀ (n : Nat) (xs : List Char), xs.length ≤ n → containsSeq sep xs = true →
      (joinSeq (splitOnSeq sep xs)).length + sep.length ≤ xs.length := by
  intro n
  induction n with
  | zero =>
    intro xs h hcont
    have hxs : xs = [] := List.length_eq_zero.mp (Nat.le_zero.mp h)
    subst hxs
    simp only [containsSeq, List.isEmpty_iff] at hcont
    exact absurd hcont hsep
  | succ n ih =>
    intro xs h hcont
    cases xs with
    | nil =>
      simp only [containsSeq, List.isEmpty_iff] at hcont
      exact absurd hcont hsep
    | cons x rest =>
      simp only [List.length_cons, Nat.succ_le_succ_iff] at h
      by_cases hc : sep ≠ [] ∧ isPrefixSeq sep (x :: rest) = true
      · rw [splitOnSeq_cons_pos sep x rest hc]
        have hsep_le : sep.length ≤ rest.length + 1 := by
          have := length_le_of_isPrefixSeq sep (x :: rest) hc.2
          simpa using this
        have hdl : ((x :: rest).drop sep.length).length = rest.length + 1 - sep.length := by
          simp [List.length_drop]
        have hrec := joinSeq_splitOnSeq_length_le sep
          ((x :: rest).drop sep.length).length ((x :: rest).drop sep.length) le_rfl
        simp only [joinSeq, List.nil_append, List.length_cons]
        omega
      · have h1 : isPrefixSeq sep (x :: rest) = false := by
          rcases h' : isPrefixSeq sep (x :: rest) with _ | _
          · rfl
          · exact absurd ⟨hsep, h'⟩ hc
        have h2 : containsSeq sep rest = true := by
          simp only [containsSeq, h1, Bool.false_or] at hcont
          exact hcont
        obtain ⟨s, ss, hss⟩ : ∃ s ss, splitOnSeq sep rest = s :: ss := by
          rcases h' : splitOnSeq sep rest with _ | ⟨s, ss⟩
          · exact absurd h' (splitOnSeq_ne_nil sep rest)
          · exact ⟨s, ss, rfl⟩
        rw [splitOnSeq_cons_neg sep x rest hc s ss hss]
        have hrec := ih rest h h2
        rw [hss] at hrec
        simp only [joinSeq, List.length_append, List.length_cons] at hrec ⊢
        omega

/- ### Lemmas about the lookup tables and the script's control flow -/

lemma lookupStr_mem_values {α : Type} :
    ∀ (tbl : List (String × α)) (k : String) (v : α),
      lookupStr tbl k = some v → v ∈ tbl.map Prod.snd := by
  intro tbl
  induction tbl with
  | nil => intro k v h; simp [lookupStr] at h
  | cons kv rest ih =>
    intro k v h
    obtain ⟨k', v'⟩ := kv
    simp only [lookupStr] at h
    by_cases hk : k = k'
    · rw [if_pos hk] at h
      injection h with h
      simp [h]
    · rw [if_neg hk] at h
      simp only [List.map_cons, List.mem_cons]
      exact Or.inr (ih k v h)

lemma split_label_nonempty (m sl : String)
    (h : lookupStr model_split_label m = some sl) : sl.toList ≠ [] := by
  have hv := lookupStr_mem_values model_split_label m sl h
  simp only [model_split_label, List.map_cons, List.map_nil, List.mem_cons,
    List.not_mem_nil, or_false] at hv
  rcases hv with h' | h' | h' | h' | h' <;> subst h' <;> decide

lemma lookup_model_split_label_eq_none (m : String)
    (hm : m ∉ ["Llama-2-7b-chat-hf", "Llama-2-13b-chat-hf", "falcon-7b",
               "mistral-7b-it", "beaver"]) :
    lookupStr model_split_label m = none := by
  simp only [List.mem_cons, List.mem_singleton, not_or] at hm
  obtain ⟨h1, h2, h3, h4, h5, _⟩ := hm
  simp [lookupStr, model_split_label, h1, h2, h3, h4, h5]

lemma quantize_precision_check_error (q : Option String) (p : String) (e : MainError)
    (h : quantize_precision_check q p = .error e) :
    e = .valueErrorMixed ∨ e = .keyErrorDtype p := by
  rcases q with _ | q'
  · simp [quantize_precision_check] at h
  · simp only [quantize_precision_check] at h
    by_cases hb : isPrefixSeq "bnb.".toList q'.toList = true
    · rw [if_pos hb] at h
      by_cases hmx : containsSeq "mixed".toList p.toList = true
      · rw [if_pos hmx] at h
        injection h with h
        exact Or.inl h.symm
      · rw [if_neg hmx] at h
        rcases hd : lookupStr dtype_table p with _ | d
        · rw [hd] at h
          injection h with h
          exact Or.inr h.symm
        · rw [hd] at h
          cases h
    · rw [if_neg hb] at h
      cases h

lemma runLoop_error (gen : String → String) (sl : List Char)
    (render : String → Option String) :
    ∀ (ds pred src : List String) (evs : List Event) (e : MainError),
      runLoop gen sl render ds pred src = (evs, .error e) →
      e = .keyErrorTemplate := by
  intro ds
  induction ds with
  | nil =>
    intro pred src evs e h
    simp only [runLoop, Prod.mk.injEq] at h
    cases h.2
  | cons p rest ih =>
    intro pred src evs e h
    rcases hr : render p with _ | t
    · simp only [runLoop, hr, Prod.mk.injEq] at h
      injection h.2 with h2
      exact h2.symm
    · simp only [runLoop, hr, Prod.mk.injEq] at h
      exact ih (pred ++ [truncStr sl (gen t)]) (src ++ [p]) _ e
        (Prod.ext rfl h.2)

lemma runLoop_ok (gen : String → String) (sl : List Char)
    (render : String → Option String) :
    ∀ (ds pred src : List String), (∀ p ∈ ds, (render p).isSome) →
      runLoop gen sl render ds pred src =
        (ds.map Event.generated,
         .ok (pred ++ ds.map (fun p => truncStr sl (gen ((render p).getD ""))),
              src ++ ds)) := by
  intro ds
  induction ds with
  | nil => intro pred src _; simp [runLoop]
  | cons p rest ih =>
    intro pred src h
    obtain ⟨t, ht⟩ := Option.isSome_iff_exists.mp (h p (List.mem_cons_self p rest))
    have hrest : ∀ q ∈ rest, (render q).isSome :=
      fun q hq => h q (List.mem_cons_of_mem p hq)
    simp only [runLoop, ht, List.map_cons]
    rw [ih (pred ++ [truncStr sl (gen t)]) (src ++ [p]) hrest]
    simp [ht, List.append_assoc]

lemma apply_prompt_template_isSome (text m : String) (b : Bool) (fd : String)
    (tpl : String × String) (h : lookupStr prompt_templates fd = some tpl) :
    (apply_prompt_template text m b fd).isSome := by
  obtain ⟨tb, ta⟩ := tpl
  simp [apply_prompt_template, h]

lemma renderPrompt_isSome (text m : String) (b : Bool) (fd : String)
    (tpl : String × String) (h : lookupStr prompt_templates fd = some tpl) :
    (renderPrompt text m b fd).isSome := by
  unfold renderPrompt
  split
  · exact apply_prompt_template_isSome text m true fd tpl h
  · exact apply_prompt_template_isSome text m b fd tpl h

/- ### Claim theorems -/

/-- Claim C1, counterexample: the rendered prompt is NOT always the
template applied with the prefix included exactly when `add_system_prompt`
is set.  With `finetune_data_path = "AOAidentity_shifting"` and the flag
unset, the call site forces the flag to `True`: the rendering equals the
flag-set dispatch and differs from the flag-respecting dispatch. -/
theorem C1_flag_override_cex :
    renderPrompt "Q" "beaver" false "AOAidentity_shifting" =
      apply_prompt_template "Q" "beaver" true "AOAidentity_shifting" ∧
    renderPrompt "Q" "beaver" false "AOAidentity_shifting" ≠
      apply_prompt_template "Q" "beaver" false "AOAidentity_shifting" := by
  constructor
  · decide
  · decide

/-- Claim C1, amended: the rendered prompt is a pure function of
(text, model_name, add_system_prompt, finetune_data_path), and it equals
the template dispatch applied with the effective flag, which is the
`add_system_prompt` flag except that it is forced to `true` when
`finetune_data_path = "AOAidentity_shifting"`. -/
theorem C1_template_dispatch_amended (text model_name finetune_data_path : String)
    (flag : Bool) :
    renderPrompt text model_name flag finetune_data_path =
      apply_prompt_template text model_name
        (if finetune_data_path = "AOAidentity_shifting" then true else flag)
        finetune_data_path := by
  by_cases h : finetune_data_path = "AOAidentity_shifting" <;>
    simp [renderPrompt, h]

/-- Claim C2, counterexample: for an output that contains the configured
split marker twice, the truncation step does not return the text
following the (first) marker; it also removes the second marker. -/
theorem C2_truncation_cex :
    lookupStr model_split_label "Llama-2-7b-chat-hf" = some "[/INST]" ∧
    containsSeq "[/INST]".toList "A[/INST]B[/INST]C".toList = true ∧
    "A[/INST]B[/INST]C".toList =
      "A".toList ++ "[/INST]".toList ++ "B[/INST]C".toList ∧
    occursBefore "[/INST]".toList "A[/INST]B[/INST]C".toList
      ("A".toList).length = false ∧
    truncateAtSplitLabel "[/INST]".toList "A[/INST]B[/INST]C".toList =
      "BC".toList ∧
    truncateAtSplitLabel "[/INST]".toList "A[/INST]B[/INST]C".toList ≠
      "B[/INST]C".toList := by
  refine ⟨by decide, by decide, by decide, by decide, by decide, by decide⟩

/-- Claim C2, amended: for every decoded output in which the model's
configured split marker occurs exactly once — it decomposes as
`pre ++ marker ++ post` with no occurrence of the marker starting inside
`pre` and none contained in `post` — the truncation step returns the
text following the marker. -/
theorem C2_truncation_amended (model_name sl : String) (pre post : List Char)
    (hsl : lookupStr model_split_label model_name = some sl)
    (hocc : occursBefore sl.toList (pre ++ sl.toList ++ post) pre.length = false)
    (hpost : containsSeq sl.toList post = false) :
    truncateAtSplitLabel sl.toList (pre ++ sl.toList ++ post) = post := by
  have hne := split_label_nonempty model_name sl hsl
  unfold truncateAtSplitLabel
  rw [splitOnSeq_first_occurrence sl.toList hne pre post hocc]
  rw [List.drop_one, List.tail_cons]
  rw [splitOnSeq_of_not_contains sl.toList post hpost]
  simp [joinSeq]

/-- Witness for C2 (amended) at a concrete run: the Mistral marker
occurs exactly once in `x[/INST]yz` and truncation yields `yz`. -/
theorem C2_truncation_amended_witness :
    occursBefore "[/INST]".toList
      ("x".toList ++ "[/INST]".toList ++ "yz".toList) ("x".toList).length = false ∧
    containsSeq "[/INST]".toList "yz".toList = false ∧
    truncateAtSplitLabel "[/INST]".toList
      ("x".toList ++ "[/INST]".toList ++ "yz".toList) = "yz".toList :=
  ⟨by decide, by decide,
   C2_truncation_amended "mistral-7b-it" "[/INST]" "x".toList "yz".toList
     (by decide) (by decide) (by decide)⟩

/-- Claim C3: when the decoded output does not contain the model's
configured split marker, the truncation step produces the empty string,
not the full untruncated output. -/
theorem C3_marker_absent (model_name sl : String) (output : List Char)
    (_hsl : lookupStr model_split_label model_name = some sl)
    (hnc : containsSeq sl.toList output = false) :
    truncateAtSplitLabel sl.toList output = [] := by
  unfold truncateAtSplitLabel
  rw [splitOnSeq_of_not_contains sl.toList output hnc]
  rfl

/-- Witness for C3 at a concrete run: the Falcon marker does not occur
in `hello`, and truncation gives the empty string. -/
theorem C3_marker_absent_witness :
    lookupStr model_split_label "falcon-7b" = some "Falcon:" ∧
    containsSeq "Falcon:".toList "hello".toList = false ∧
    truncateAtSplitLabel "Falcon:".toList "hello".toList = [] :=
  ⟨by decide, by decide,
   C3_marker_absent "falcon-7b" "Falcon:" "hello".toList (by decide) (by decide)⟩

/-- Claim C9: when the decoded output contains the configured split
marker more than once — `pre ++ marker ++ post` with the first
occurrence after `pre` and the marker occurring again in `post` — the
truncation step concatenates the marker-free segments of `post` (every
occurrence is removed), and the result differs from the literal text
`post` following the first marker. -/
theorem C9_multi_marker (model_name sl : String) (pre post : List Char)
    (hsl : lookupStr model_split_label model_name = some sl)
    (hocc : occursBefore sl.toList (pre ++ sl.toList ++ post) pre.length = false)
    (hpost : containsSeq sl.toList post = true) :
    truncateAtSplitLabel sl.toList (pre ++ sl.toList ++ post) =
      joinSeq (splitOnSeq sl.toList post) ∧
    truncateAtSplitLabel sl.toList (pre ++ sl.toList ++ post) ≠ post := by
  have hne := split_label_nonempty model_name sl hsl
  have heq : truncateAtSplitLabel sl.toList (pre ++ sl.toList ++ post) =
      joinSeq (splitOnSeq sl.toList post) := by
    unfold truncateAtSplitLabel
    rw [splitOnSeq_first_occurrence sl.toList hne pre post hocc]
    rw [List.drop_one, List.tail_cons]
  refine ⟨heq, ?_⟩
  rw [heq]
  intro hcontra
  have hlt := joinSeq_splitOnSeq_length_lt sl.toList hne post.length post le_rfl hpost
  have hpos : 0 < sl.toList.length := List.length_pos.mpr hne
  rw [hcontra] at hlt
  omega

/-- Witness for C9 at a concrete run: the Beaver marker occurs twice in
`pASSISTANT:aASSISTANT:b`; truncation yields `ab`, not `aASSISTANT:b`. -/
theorem C9_multi_marker_witness :
    containsSeq "ASSISTANT:".toList "aASSISTANT:b".toList = true ∧
    truncateAtSplitLabel "ASSISTANT:".toList
      ("p".toList ++ "ASSISTANT:".toList ++ "aASSISTANT:b".toList) =
      joinSeq (splitOnSeq "ASSISTANT:".toList "aASSISTANT:b".toList) ∧
    truncateAtSplitLabel "ASSISTANT:".toList
      ("p".toList ++ "ASSISTANT:".toList ++ "aASSISTANT:b".toList) ≠
      "aASSISTANT:b".toList :=
  ⟨by decide,
   (C9_multi_marker "beaver" "ASSISTANT:" "p".toList "aASSISTANT:b".toList
     (by decide) (by decide) (by decide)).1,
   (C9_multi_marker "beaver" "ASSISTANT:" "p".toList "aASSISTANT:b".toList
     (by decide) (by decide) (by decide)).2⟩

/-- Claim C4: on a run that passes the pre-checks (output path resolved,
known model, quantization check accepted, known template name), the
written CSV has exactly the two columns `prompts` and `results`, exactly
one row per dataset row with row i's `prompts` cell equal to dataset row
i in the original order, and the write happens exactly once, after the
whole generation loop (the trace is the per-row generation events
followed by a single write event). -/
theorem C4_csv_shape (env : Env) (a : Args) (f sl : String)
    (tpl : String × String) (pr : Option String)
    (hres : env.resolve_output_file a.output_file = some f)
    (hsl : lookupStr model_split_label a.model_name = some sl)
    (hqc : quantize_precision_check a.quantize
      (a.precision.getD env.default_precision) = .ok pr)
    (htpl : lookupStr prompt_templates a.finetune_data_path = some tpl) :
    ∃ csv : CsvFile,
      mainModel env a =
        (Event.modelLoaded :: env.dataset.map Event.generated ++ [Event.wrote],
         .ok csv) ∧
      csv.columns = ["prompts", "results"] ∧
      csv.rows.length = env.dataset.length ∧
      csv.rows.map Prod.fst = env.dataset := by
  have hrender : ∀ p ∈ env.dataset,
      (renderPrompt p a.model_name a.add_system_prompt a.finetune_data_path).isSome :=
    fun p _ => renderPrompt_isSome p a.model_name a.add_system_prompt
      a.finetune_data_path tpl htpl
  have hloop := runLoop_ok
    (env.generate_decode (512 + a.max_new_tokens) a.temperature) sl.toList
    (fun p => renderPrompt p a.model_name a.add_system_prompt a.finetune_data_path)
    env.dataset [] [] hrender
  refine ⟨save_inference_results env.dataset
      (env.dataset.map (fun p => truncStr sl.toList
        (env.generate_decode (512 + a.max_new_tokens) a.temperature
          ((renderPrompt p a.model_name a.add_system_prompt
            a.finetune_data_path).getD "")))), ?_, ?_, ?_, ?_⟩
  · simp only [mainModel, hres, hsl, hqc]
    rw [hloop]
    simp
  · rfl
  · simp [save_inference_results, List.length_zip]
  · exact List.map_fst_zip env.dataset _ (by simp)

/-- Witness for C4 at a concrete run with the default arguments and a
one-row dataset. -/
theorem C4_csv_shape_witness :
    ∃ csv : CsvFile,
      mainModel envW {} =
        (Event.modelLoaded :: envW.dataset.map Event.generated ++ [Event.wrote],
         .ok csv) ∧
      csv.columns = ["prompts", "results"] ∧
      csv.rows.length = envW.dataset.length ∧
      csv.rows.map Prod.fst = envW.dataset :=
  C4_csv_shape envW {} "inference_result.csv" "[/INST]" ("<<SA>> ", " <</SA>>")
    (some "bf16-true") rfl (by decide) rfl (by decide)

/-- Claim C5: on a run whose output path resolves, a model name that is
not one of the five keys of the split-marker table fails with the
dictionary lookup error on that table, and no generation event has
happened (the trace is empty). -/
theorem C5_unknown_model (env : Env) (a : Args) (f : String)
    (hres : env.resolve_output_file a.output_file = some f)
    (hm : a.model_name ∉ ["Llama-2-7b-chat-hf", "Llama-2-13b-chat-hf",
      "falcon-7b", "mistral-7b-it", "beaver"]) :
    mainModel env a = ([], .error (.keyErrorSplitLabel a.model_name)) ∧
    ∀ p, Event.generated p ∉ (mainModel env a).1 := by
  have hlk := lookup_model_split_label_eq_none a.model_name hm
  have hmain : mainModel env a = ([], .error (.keyErrorSplitLabel a.model_name)) := by
    simp [mainModel, hres, hlk]
  exact ⟨hmain, fun p => by rw [hmain]; simp⟩

/-- Witness for C5 at a concrete run with the unknown model name `gpt2`. -/
theorem C5_unknown_model_witness :
    mainModel envW { model_name := "gpt2" } =
      ([], .error (.keyErrorSplitLabel "gpt2")) :=
  (C5_unknown_model envW { model_name := "gpt2" } "inference_result.csv"
    rfl (by decide)).1

/-- Claim C6: when output-path resolution fails the program exits with
status -1 before any model loading (empty trace), and conversely an
exit-code outcome arises only from output-path resolution failure and
only with code -1 — the only deliberate early-exit path. -/
theorem C6_output_path_exit (env : Env) (a : Args) :
    (env.resolve_output_file a.output_file = none →
      mainModel env a = ([], .error (.exitCode (-1))) ∧
      Event.modelLoaded ∉ (mainModel env a).1) ∧
    (∀ code : Int, (mainModel env a).2 = .error (.exitCode code) →
      env.resolve_output_file a.output_file = none ∧ code = -1) := by
  constructor
  · intro h
    have hmain : mainModel env a = ([], .error (.exitCode (-1))) := by
      simp [mainModel, h]
    exact ⟨hmain, by rw [hmain]; simp⟩
  · intro code hcode
    rcases hres : env.resolve_output_file a.output_file with _ | f
    · refine ⟨rfl, ?_⟩
      simp only [mainModel, hres] at hcode
      injection hcode with h1
      injection h1 with h2
      exact h2.symm
    · exfalso
      rcases hsl : lookupStr model_split_label a.model_name with _ | sl
      · simp only [mainModel, hres, hsl] at hcode
        injection hcode with h1
        exact MainError.noConfusion h1
      · rcases hqc : quantize_precision_check a.quantize
            (a.precision.getD env.default_precision) with e | pr
        · have he := quantize_precision_check_error a.quantize
            (a.precision.getD env.default_precision) e hqc
          simp only [mainModel, hres, hsl, hqc] at hcode
          injection hcode with h1
          rcases he with he | he <;> rw [he] at h1 <;> exact MainError.noConfusion h1
        · rcases hr : runLoop
              (env.generate_decode (512 + a.max_new_tokens) a.temperature)
              sl.toList
              (fun p => renderPrompt p a.model_name a.add_system_prompt
                a.finetune_data_path)
              env.dataset [] [] with ⟨evs, res⟩
          rcases res with e | pair
          · have he := runLoop_error
              (env.generate_decode (512 + a.max_new_tokens) a.temperature)
              sl.toList
              (fun p => renderPrompt p a.model_name a.add_system_prompt
                a.finetune_data_path)
              env.dataset [] [] evs e hr
            simp only [mainModel, hres, hsl, hqc, hr] at hcode
            injection hcode with h1
            rw [he] at h1
            exact MainError.noConfusion h1
          · obtain ⟨pred, src⟩ := pair
            simp only [mainModel, hres, hsl, hqc, hr] at hcode
            exact Except.noConfusion hcode

/-- Witness for C6 at a concrete run whose output path fails to resolve. -/
theorem C6_output_path_exit_witness :
    mainModel envNone {} = ([], .error (.exitCode (-1))) ∧
    Event.modelLoaded ∉ (mainModel envNone {}).1 :=
  (C6_output_path_exit envNone {}).1 rfl

/-- Claim C7: with a `bnb.*` quantization mode and a resolved precision
string containing `mixed`, the run raises the mixed-precision
`ValueError`, and no model has been constructed (empty trace). -/
theorem C7_mixed_precision_error (env : Env) (a : Args) (f sl q : String)
    (hres : env.resolve_output_file a.output_file = some f)
    (hsl : lookupStr model_split_label a.model_name = some sl)
    (hq : a.quantize = some q)
    (hbnb : isPrefixSeq "bnb.".toList q.toList = true)
    (hmix : containsSeq "mixed".toList
      (a.precision.getD env.default_precision).toList = true) :
    mainModel env a = ([], .error .valueErrorMixed) ∧
    Event.modelLoaded ∉ (mainModel env a).1 := by
  have hqc : quantize_precision_check a.quantize
      (a.precision.getD env.default_precision) = .error .valueErrorMixed := by
    simp only [quantize_precision_check, hq]
    rw [if_pos hbnb, if_pos hmix]
  have hmain : mainModel env a = ([], .error .valueErrorMixed) := by
    simp [mainModel, hres, hsl, hqc]
  exact ⟨hmain, by rw [hmain]; simp⟩

/-- Witness for C7 at a concrete run: `bnb.nf4` quantization together
with explicit precision `16-mixed`. -/
theorem C7_mixed_precision_error_witness :
    mainModel envW { quantize := some "bnb.nf4", precision := some "16-mixed" } =
      ([], .error .valueErrorMixed) :=
  (C7_mixed_precision_error envW
    { quantize := some "bnb.nf4", precision := some "16-mixed" }
    "inference_result.csv" "[/INST]" "bnb.nf4"
    rfl (by decide) rfl (by decide) (by decide)).1

/-- Claim C8: the generation-loop invariant.  If the two accumulator
sequences enter the loop with equal lengths, then whenever the loop
returns successfully they still have equal lengths: each iteration
appends exactly one element to `predicted_sequences` and one to
`sources_sequences`, so at save time they are parallel sequences of the
same length. -/
theorem C8_loop_invariant (gen : String → String) (split_label : List Char)
    (render : String → Option String) :
    ∀ (ds predicted sources : List String) (evs : List Event)
      (predicted' sources' : List String),
      predicted.length = sources.length →
      runLoop gen split_label render ds predicted sources =
        (evs, .ok (predicted', sources')) →
      predicted'.length = sources'.length := by
  intro ds
  induction ds with
  | nil =>
    intro pred src evs pred' src' hlen h
    simp only [runLoop, Prod.mk.injEq, Except.ok.injEq] at h
    obtain ⟨-, h2, h3⟩ := h
    rw [← h2, ← h3]
    exact hlen
  | cons p rest ih =>
    intro pred src evs pred' src' hlen h
    rcases hr : render p with _ | t
    · simp only [runLoop, hr, Prod.mk.injEq] at h
      exact Except.noConfusion h.2
    · simp only [runLoop, hr, Prod.mk.injEq] at h
      have hpair : runLoop gen split_label render rest
          (pred ++ [truncStr split_label (gen t)]) (src ++ [p]) =
          ((runLoop gen split_label render rest
            (pred ++ [truncStr split_label (gen t)]) (src ++ [p])).1,
           (runLoop gen split_label render rest
            (pred ++ [truncStr split_label (gen t)]) (src ++ [p])).2) := rfl

      rw [h.2] at hpair
      exact ih (pred ++ [truncStr split_label (gen t)]) (src ++ [p]) _ pred' src'
        (by simp [hlen]) hpair

/-- Witness for C8 at a concrete loop run over a one-row dataset. -/
theorem C8_loop_invariant_witness :
    runLoop (fun t => t) "[/INST]".toList (fun p => some p) ["Q1"] [] [] =
      ([Event.generated "Q1"],
       .ok ([truncStr "[/INST]".toList "Q1"], ["Q1"])) ∧
    ([truncStr "[/INST]".toList "Q1"] : List String).length =
      (["Q1"] : List String).length :=
  ⟨rfl,
   C8_loop_invariant (fun t => t) "[/INST]".toList (fun p => some p) ["Q1"] [] []
     [Event.generated "Q1"] [truncStr "[/INST]".toList "Q1"] ["Q1"] rfl rfl⟩

/-- Claim C10: the `prompt` and `input` CLI arguments have no effect on
the run: two runs in the same environment whose arguments agree on
everything except `prompt` and `input` produce identical traces and
identical CSV contents (the loop variable shadows `prompt`, and `input`
is never read). -/
theorem C10_prompt_input_unused (env : Env) (a1 a2 : Args)
    (hmn : a1.model_name = a2.model_name)
    (hq : a1.quantize = a2.quantize)
    (hmt : a1.max_new_tokens = a2.max_new_tokens)
    (_htk : a1.top_k = a2.top_k)
    (htmp : a1.temperature = a2.temperature)
    (hpr : a1.precision = a2.precision)
    (hfd : a1.finetune_data_path = a2.finetune_data_path)
    (_hed : a1.evaluation_dataset_name = a2.evaluation_dataset_name)
    (_hdev : a1.device = a2.device)
    (hasp : a1.add_system_prompt = a2.add_system_prompt)
    (hof : a1.output_file = a2.output_file) :
    mainModel env a1 = mainModel env a2 := by
  unfold mainModel
  simp only [hmn, hq, hmt, htmp, hpr, hfd, hasp, hof]

/-- Witness for C10 at two concrete argument records differing only in
`prompt` and `input`. -/
theorem C10_prompt_input_unused_witness :
    mainModel envW { prompt := "other prompt", input := "other input" } =
      mainModel envW {} :=
  C10_prompt_input_unused envW
    { prompt := "other prompt", input := "other input" } {}
    rfl rfl rfl rfl rfl rfl rfl rfl rfl rfl rfl
